import Mathlib

/-!
Verification of the multi-partner training engine of this repository.

The development shallowly embeds the federated training orchestration of
`fl_training.py` (`compute_test_score`, `compute_test_score_for_single_node`),
the configuration validation of `mplc/scenario.py` (`Scenario.__init__`,
`Scenario.compute_batch_sizes`) and the config expansion of
`subtest/utils.py` (`get_scenario_params_list`).

External collaborators (keras model fitting and evaluation) are abstracted as
oracle functions, exactly as the spec treats the trainable model as an opaque
collaborator.  Model parameter snapshots are nested lists of rationals
(keras `get_weights()` returns a list of layer arrays; an array is a list of
rows; a row is a list of scalars).  The numpy averaging of
`fl_training.py` lines 117-129 and 178-184 is embedded concretely.
-/

namespace Mplc

/-! ### Python list helpers -/

/-- Length of the shortest list: `zip(*ls)` truncates at the shortest input. -/
def minLen {α : Type} : List (List α) → ℕ
  | [] => 0
  | [l] => l.length
  | l :: l' :: ls => min l.length (minLen (l' :: ls))

/-- Python `zip(*ls)`: transpose truncated to the shortest list. -/
def pyZip {α : Type} (dflt : α) (ls : List (List α)) : List (List α) :=
  (List.range (minLen ls)).map (fun i => ls.map (fun l => l.getD i dflt))

/-- Python negative indexing `l[-k]` (for `k = 0`, `l[-0]` is `l[0]`). -/
def pyNegIdx (l : List ℚ) (k : ℕ) : ℚ :=
  if k = 0 then l.getD 0 0 else l.getD (l.length - k) 0

/-! ### Model weights and the aggregation phase (fl_training.py 117-129, 178-184) -/

/-- One row of a layer array. -/
abbrev Row := List ℚ

/-- One layer of a keras model, as returned inside `get_weights()`. -/
abbrev Layer := List Row

/-- A full model parameter snapshot: `model.get_weights()`. -/
abbrev ModelWeights := List Layer

/-- The numpy call `np.array(xs).mean(axis=0)` on a stack of scalars. -/
def npMean (xs : List ℚ) : ℚ := xs.sum / xs.length

/-- The numpy call `np.array(rows).mean(axis=0)`: element-wise mean of equally shaped rows. -/
def npMeanRows (rows : List Row) : Row := (pyZip 0 rows).map npMean

/-- The aggregation phase of `compute_test_score`:

    for weights_list_tuple in zip(*weights):
        new_weights.append(
            [np.array(weights_).mean(axis=0) for weights_ in zip(*weights_list_tuple)])

It is a plain, unweighted element-wise mean of the snapshots; no partner
data-volume enters the computation. -/
def aggregateWeights (weights : List ModelWeights) : ModelWeights :=
  (pyZip [] weights).map (fun weights_list_tuple =>
    (pyZip [] weights_list_tuple).map npMeanRows)

/-! #### Unweighted-mean shape lemmas -/

theorem minLen_const {α : Type} (ls : List (List α)) (k : ℕ)
    (h : ∀ l ∈ ls, l.length = k) (hne : ls ≠ []) : minLen ls = k := by
  induction ls with
  | nil => exact absurd rfl hne
  | cons l ls ih =>
    cases ls with
    | nil => simpa [minLen] using h l (by simp)
    | cons l' ls' =>
      have h1 : l.length = k := h l (by simp)
      have h2 : minLen (l' :: ls') = k :=
        ih (fun x hx => h x (List.mem_cons_of_mem _ hx)) (by simp)
      simp [minLen, h1, h2]

theorem pyZip_singletons {α β : Type} (dflt : α) (f : β → α) (c : β) (cs : List β) :
    pyZip dflt ((c :: cs).map fun x => [f x]) = [(c :: cs).map f] := by
  have hlen : minLen ((c :: cs).map fun x => [f x]) = 1 := by
    refine minLen_const _ 1 ?_ (by simp)
    intro l hl
    simp only [List.mem_map] at hl
    obtain ⟨x, _, rfl⟩ := hl
    rfl
  rw [pyZip, hlen]
  have h1 : List.range 1 = [0] := rfl
  rw [h1]
  simp [List.map_map, Function.comp_def]

/-! ### Nodes and the external keras oracle -/

/-- A node (partner): an id together with labels naming its data slices.
`δ` is the type of dataset labels; the concrete arrays live outside the core. -/
structure Node (δ : Type) where
  node_id : ℕ
  trainData : δ
  valData : δ
  testData : δ

/-- The opaque trainable-model collaborator.  Each field abstracts one
keras call made by `fl_training.py`:
* `fitFresh e nd`: `generate_new_cnn_model()` + `fit(..., epochs=1)` on node
  `nd` at loop epoch `e` (the first-epoch branch, no seeding);
* `fitFrom w e nd`: `generate_new_cnn_model()`, `set_weights(w)`, then one
  local pass `fit(..., epochs=1)` on node `nd` at loop epoch `e`;
* `fitSingle nd k`: `generate_new_cnn_model()` + `fit(..., epochs=k)` on node
  `nd` (the single-node path);
* `evalOn w d`: `evaluate` of a model with weights `w` on dataset `d`,
  returning `(loss, accuracy)` (`model_evaluation[0]`, `model_evaluation[1]`). -/
structure MLOracle (δ : Type) where
  fitFresh : ℕ → Node δ → ModelWeights
  fitFrom : ModelWeights → ℕ → Node δ → ModelWeights
  fitSingle : Node δ → ℕ → ModelWeights
  evalOn : ModelWeights → δ → ℚ × ℚ

/-- Modelled from the spec: `constants.py` is not under `src/`; the spec fixes
the early-stopping patience hyperparameter default to 2. -/
def PATIENCE : ℕ := 2

/-! ### The multi-partner epoch loop (fl_training.py 104-175) -/

/-- State reached when the epoch loop of `compute_test_score` exits:
the per-node `model_list`, the `global_val_loss` and `global_val_acc`
histories, the trace of seeds used by the executed training phases
(`none` = fresh initialization, `some w` = `set_weights(w)`), and the number
of epochs whose training phase ran. -/
structure LoopOut where
  models : List ModelWeights
  losses : List ℚ
  accs : List ℚ
  seeds : List (Option ModelWeights)
  trained : ℕ
deriving DecidableEq

/-- Everything `compute_test_score` computes, enriched with the histories it
builds along the way.  `score` is the returned value. -/
structure FLRun where
  score : ℚ
  trained : ℕ
  globalValLoss : List ℚ
  globalValAcc : List ℚ
  seeds : List (Option ModelWeights)
  finalModels : List ModelWeights
deriving DecidableEq

/-- The `for epoch in range(epochs)` loop of `compute_test_score`
(fl_training.py 104-175), fuel-indexed.  At epoch 0 each node trains a fresh
model on its own data; at epoch `k+1` the previous epoch's snapshots are
aggregated, the aggregate is evaluated on the test data `d` and recorded,
the early-stopping break fires when
`epoch >= PATIENCE and current_val_loss > global_val_loss[-PATIENCE]`,
and otherwise every node trains one local pass seeded from the aggregate. -/
def flAux {δ : Type} (O : MLOracle δ) (nodes : List (Node δ)) (d : δ)
    (isES : Bool) (patience : ℕ) :
    ℕ → ℕ → List ModelWeights → List ℚ → List ℚ →
    List (Option ModelWeights) → ℕ → LoopOut
  | _, 0, models, losses, accs, seeds, trained =>
    ⟨models, losses, accs, seeds, trained⟩
  | 0, fuel + 1, _, losses, accs, seeds, trained =>
    flAux O nodes d isES patience 1 fuel
      (nodes.map fun nd => O.fitFresh 0 nd) losses accs
      (seeds ++ [none]) (trained + 1)
  | k + 1, fuel + 1, models, losses, accs, seeds, trained =>
    let newW := aggregateWeights models
    let ev := O.evalOn newW d
    let losses' := losses ++ [ev.1]
    let accs' := accs ++ [ev.2]
    if isES = true ∧ patience ≤ k + 1 ∧ pyNegIdx losses' patience < ev.1 then
      ⟨models, losses', accs', seeds, trained⟩
    else
      flAux O nodes d isES patience (k + 2) fuel
        (nodes.map fun nd => O.fitFrom newW (k + 1) nd) losses' accs'
        (seeds ++ [some newW]) (trained + 1)

/-- Embedding of `compute_test_score_for_single_node` (fl_training.py 46-72): train a fresh
model on the node's data for `epoch_count` epochs and return the accuracy of
its evaluation on the node's own test data. -/
def compute_test_score_for_single_node {δ : Type} (O : MLOracle δ)
    (node : Node δ) (epoch_count : ℕ) : ℚ :=
  (O.evalOn (O.fitSingle node epoch_count) node.testData).2

/-- The multi-node branch of `compute_test_score`: run the epoch loop, then
perform the final aggregation (fl_training.py 178-190) and evaluate the final
model on the test data (fl_training.py 226-235), returning `model_evaluation[1]`. -/
def multiNodeRun {δ : Type} (O : MLOracle δ) (nodes : List (Node δ))
    (epoch_count : ℕ) (d : δ) (isES : Bool) (patience : ℕ) : FLRun :=
  let out := flAux O nodes d isES patience 0 epoch_count [] [] [] [] 0
  ⟨(O.evalOn (aggregateWeights out.models) d).2, out.trained,
    out.losses, out.accs, out.seeds, out.models⟩

/-- Embedding of `compute_test_score` (fl_training.py 87-235).  With exactly one node the
single-node path is taken (no aggregation, empty histories); otherwise the
epoch loop runs followed by the final aggregation and test evaluation. -/
def compute_test_score {δ : Type} (O : MLOracle δ) (node_list : List (Node δ))
    (epoch_count : ℕ) (x_test : δ) (isES : Bool) (patience : ℕ) : FLRun :=
  match node_list with
  | [node] =>
    ⟨compute_test_score_for_single_node O node epoch_count, epoch_count,
      [], [], [], []⟩
  | [] => multiNodeRun O [] epoch_count x_test isES patience
  | a :: b :: rest => multiNodeRun O (a :: b :: rest) epoch_count x_test isES patience

/-! ### Denotational description of the loop

The per-epoch snapshots and recorded metrics are deterministic functions of
the oracle; the following definitions name them, and the characterization
lemmas below prove that the loop computes them. -/

/-- The per-node snapshots produced by the training phase of epoch `e`
(provided that epoch is reached): fresh models at epoch 0, models seeded with
the aggregate of the previous epoch's snapshots afterwards. -/
def modelsAt {δ : Type} (O : MLOracle δ) (nodes : List (Node δ)) : ℕ → List ModelWeights
  | 0 => nodes.map fun nd => O.fitFresh 0 nd
  | e + 1 => nodes.map fun nd =>
      O.fitFrom (aggregateWeights (modelsAt O nodes e)) (e + 1) nd

/-- The `(loss, accuracy)` pair recorded at loop epoch `k ≥ 1`: evaluation of
the aggregate of epoch `k - 1`'s snapshots on the dataset `d`. -/
def gEval {δ : Type} (O : MLOracle δ) (nodes : List (Node δ)) (d : δ) (k : ℕ) : ℚ × ℚ :=
  O.evalOn (aggregateWeights (modelsAt O nodes (k - 1))) d

/-- The entry `global_val_loss[k]` (1-indexed by loop epoch). -/
def gLoss {δ : Type} (O : MLOracle δ) (nodes : List (Node δ)) (d : δ) (k : ℕ) : ℚ :=
  (gEval O nodes d k).1

/-- The entry `global_val_acc[k]` (1-indexed by loop epoch). -/
def gAcc {δ : Type} (O : MLOracle δ) (nodes : List (Node δ)) (d : δ) (k : ℕ) : ℚ :=
  (gEval O nodes d k).2

/-- The early-stopping break condition actually tested at loop epoch `e`:
the check is armed once `patience ≤ e` (with `e` recorded evaluations in the
history) and fires when the fresh loss exceeds the loss recorded
`patience - 1` epochs earlier (Python index `-patience`, the current entry
sitting at `-1`). -/
def esHit (isES : Bool) (gl : ℕ → ℚ) (patience e : ℕ) : Bool :=
  isES && decide (patience ≤ e) && decide (gl (e - patience + 1) < gl e)

/-- First epoch in `[start, start + fuel)` at which the break fires, or
`start + fuel` when it never does. -/
def haltIn (isES : Bool) (gl : ℕ → ℚ) (patience start fuel : ℕ) : ℕ :=
  ((List.range' start fuel).find? (esHit isES gl patience)).getD (start + fuel)

/-- The seed trace after `e` executed training phases. -/
def seedsUpTo {δ : Type} (O : MLOracle δ) (nodes : List (Node δ)) (e : ℕ) :
    List (Option ModelWeights) :=
  (List.range e).map fun j =>
    if j = 0 then none else some (aggregateWeights (modelsAt O nodes (j - 1)))

/-- The loop state the characterization lemma proves `flAux` reaches. -/
def outChar {δ : Type} (O : MLOracle δ) (nodes : List (Node δ)) (d : δ)
    (isES : Bool) (patience start fuel : ℕ) : LoopOut :=
  let E := haltIn isES (gLoss O nodes d) patience start fuel
  ⟨modelsAt O nodes (E - 1),
    (List.range' 1 (if E < start + fuel then E else E - 1)).map (gLoss O nodes d),
    (List.range' 1 (if E < start + fuel then E else E - 1)).map (gAcc O nodes d),
    seedsUpTo O nodes E, E⟩

/-! ### Characterization of the loop -/

theorem getD_map_range' {f : ℕ → ℚ} {n i : ℕ} (h : i < n) :
    ((List.range' 1 n).map f).getD i 0 = f (1 + i) := by
  rw [List.getD_eq_getElem?_getD, List.getElem?_map, List.getElem?_range' _ _ h]
  simp

theorem gLoss_fst {δ : Type} (O : MLOracle δ) (nodes : List (Node δ)) (d : δ) (k : ℕ) :
    (gEval O nodes d k).1 = gLoss O nodes d k := rfl

theorem gAcc_snd {δ : Type} (O : MLOracle δ) (nodes : List (Node δ)) (d : δ) (k : ℕ) :
    (gEval O nodes d k).2 = gAcc O nodes d k := rfl

theorem map_range'_concat (f : ℕ → ℚ) (k : ℕ) :
    (List.range' 1 k).map f ++ [f (k + 1)] = (List.range' 1 (k + 1)).map f := by
  rw [List.range'_1_concat, List.map_append]
  simp [Nat.add_comm]

theorem pyNegIdx_map_range' {f : ℕ → ℚ} {k p : ℕ} (hp : p + 1 ≤ k + 1) :
    pyNegIdx ((List.range' 1 (k + 1)).map f) (p + 1) = f (k + 1 - (p + 1) + 1) := by
  rw [pyNegIdx, if_neg (Nat.succ_ne_zero p)]
  have hlen : ((List.range' 1 (k + 1)).map f).length = k + 1 := by simp
  rw [hlen, getD_map_range' (by omega)]
  congr 1
  omega

theorem seedsUpTo_succ {δ : Type} (O : MLOracle δ) (nodes : List (Node δ)) (k : ℕ) :
    seedsUpTo O nodes (k + 1) ++ [some (aggregateWeights (modelsAt O nodes k))]
      = seedsUpTo O nodes (k + 2) := by
  rw [seedsUpTo, seedsUpTo, List.range_succ (n := k + 1), List.map_append]
  simp

theorem haltIn_pos {isES : Bool} {gl : ℕ → ℚ} {patience start : ℕ}
    (h : esHit isES gl patience start = true) (fuel : ℕ) :
    haltIn isES gl patience start (fuel + 1) = start := by
  rw [haltIn, List.range'_succ, List.find?_cons_of_pos _ h, Option.getD_some]

theorem haltIn_neg {isES : Bool} {gl : ℕ → ℚ} {patience start : ℕ}
    (h : esHit isES gl patience start = false) (fuel : ℕ) :
    haltIn isES gl patience start (fuel + 1) = haltIn isES gl patience (start + 1) fuel := by
  rw [haltIn, haltIn, List.range'_succ,
    List.find?_cons_of_neg _ (by simp [h])]
  congr 1
  omega

/-- The loop-invariant characterization of `flAux`: started at epoch `k + 1`
in the state the first `k + 1` epochs produce, the loop ends in the state
described by `outChar`. -/
theorem flAux_char {δ : Type} (O : MLOracle δ) (nodes : List (Node δ)) (d : δ)
    (isES : Bool) (p : ℕ) :
    ∀ fuel k,
      flAux O nodes d isES (p + 1) (k + 1) fuel (modelsAt O nodes k)
        ((List.range' 1 k).map (gLoss O nodes d))
        ((List.range' 1 k).map (gAcc O nodes d))
        (seedsUpTo O nodes (k + 1)) (k + 1)
      = outChar O nodes d isES (p + 1) (k + 1) fuel := by
  intro fuel
  induction fuel with
  | zero =>
    intro k
    simp [flAux, outChar, haltIn]
  | succ fuel ih =>
    intro k
    have hev : O.evalOn (aggregateWeights (modelsAt O nodes k)) d
        = gEval O nodes d (k + 1) := by
      simp [gEval]
    simp only [flAux, hev, gLoss_fst, gAcc_snd,
      map_range'_concat (gLoss O nodes d) k, map_range'_concat (gAcc O nodes d) k]
    split
    · rename_i h
      have hes : esHit isES (gLoss O nodes d) (p + 1) (k + 1) = true := by
        rw [esHit]
        simp only [Bool.and_eq_true, decide_eq_true_eq]
        refine ⟨⟨h.1, h.2.1⟩, ?_⟩
        have := h.2.2
        rwa [pyNegIdx_map_range' h.2.1] at this
      rw [outChar, haltIn_pos hes]
      have hlt : k + 1 < k + 1 + (fuel + 1) := by omega
      simp [hlt]
    · rename_i h
      have hes : esHit isES (gLoss O nodes d) (p + 1) (k + 1) = false := by
        rw [esHit]
        simp only [Bool.and_eq_true, decide_eq_true_eq, Bool.and_eq_false_iff]
        by_cases h1 : isES = true
        · by_cases h2 : p + 1 ≤ k + 1
          · right
            simp only [decide_eq_false_iff_not]
            intro hlt
            exact h ⟨h1, h2, by rwa [pyNegIdx_map_range' h2]⟩
          · left
            right
            simpa using h2
        · left
          left
          simpa using h1
      have hmodels : (nodes.map fun nd =>
          O.fitFrom (aggregateWeights (modelsAt O nodes k)) (k + 1) nd)
          = modelsAt O nodes (k + 1) := rfl
      rw [hmodels, seedsUpTo_succ]
      rw [ih (k + 1)]
      rw [outChar, outChar, haltIn_neg hes]
      have harith : k + 1 + (fuel + 1) = k + 1 + 1 + fuel := by omega
      rw [harith]

/-- The run `compute_test_score` performs on `T + 1` epochs with at least two
nodes, expressed denotationally: the loop halts at epoch
`E = haltIn ...` (or exhausts the budget, in which case `E = T + 1`), the
final aggregation re-aggregates the snapshots of the last completed epoch
`E - 1`, and the score is the accuracy of that aggregate on the test data. -/
def runChar {δ : Type} (O : MLOracle δ) (nodes : List (Node δ)) (d : δ)
    (isES : Bool) (p T : ℕ) : FLRun :=
  let E := haltIn isES (gLoss O nodes d) (p + 1) 1 T
  ⟨(O.evalOn (aggregateWeights (modelsAt O nodes (E - 1))) d).2, E,
    (List.range' 1 (if E < 1 + T then E else E - 1)).map (gLoss O nodes d),
    (List.range' 1 (if E < 1 + T then E else E - 1)).map (gAcc O nodes d),
    seedsUpTo O nodes E, modelsAt O nodes (E - 1)⟩

theorem compute_test_score_multi {δ : Type} (O : MLOracle δ) (a b : Node δ)
    (rest : List (Node δ)) (d : δ) (isES : Bool) (p T : ℕ) :
    compute_test_score O (a :: b :: rest) (T + 1) d isES (p + 1)
      = runChar O (a :: b :: rest) d isES p T := by
  show multiNodeRun O (a :: b :: rest) (T + 1) d isES (p + 1) = _
  have hstep : flAux O (a :: b :: rest) d isES (p + 1) 0 (T + 1) [] [] [] [] 0
      = outChar O (a :: b :: rest) d isES (p + 1) 1 T := by
    have h1 : flAux O (a :: b :: rest) d isES (p + 1) 0 (T + 1) [] [] [] [] 0
        = flAux O (a :: b :: rest) d isES (p + 1) 1 T
            ((a :: b :: rest).map fun nd => O.fitFresh 0 nd) [] [] ([] ++ [none]) 1 := by
      simp only [flAux]
    rw [h1]
    have h2 := flAux_char O (a :: b :: rest) d isES p T 0
    simpa [modelsAt, seedsUpTo] using h2
  simp only [multiNodeRun, hstep]
  rfl

theorem flAux_trained_le {δ : Type} (O : MLOracle δ) (nodes : List (Node δ))
    (d : δ) (isES : Bool) (patience : ℕ) :
    ∀ fuel epoch models losses accs seeds trained,
      (flAux O nodes d isES patience epoch fuel models losses accs seeds
        trained).trained ≤ trained + fuel := by
  intro fuel
  induction fuel with
  | zero =>
    intro epoch models losses accs seeds trained
    simp [flAux]
  | succ fuel ih =>
    intro epoch models losses accs seeds trained
    cases epoch with
    | zero =>
      simp only [flAux]
      exact le_trans (ih 1 _ _ _ _ (trained + 1)) (by omega)
    | succ k =>
      simp only [flAux]
      split
      · simp
      · exact le_trans (ih (k + 2) _ _ _ _ (trained + 1)) (by omega)

/-! ### Scenario construction (mplc/scenario.py) -/

/-- The Python exception classes raised by `Scenario.__init__` and
`get_scenario_params_list`. -/
inductive PyError where
  | exception
  | valueError
  | attributeError
  | keyError
  | assertionError
deriving DecidableEq

/-- The constructor arguments of `Scenario.__init__` that take part in its
validation, together with booleans abstracting lookups whose registries
(`IMPLEMENTED_SPLITTERS`, `IMPLEMENTED_CORRUPTION`) or objects (the dataset)
live outside the validated hyperparameters. -/
structure ScenarioParams where
  partners_count : ℤ
  amounts_per_partner : List ℚ
  dataset_valid : Bool
  dataset_proportion : ℚ
  test_set : String
  val_set : String
  splitter_known : Bool
  corruption_known : Bool
  multi_partner_learning_approach : String
  aggregation_weighting : String
  epoch_count : ℤ
  minibatch_count : ℤ
  gradient_updates_per_pass_count : ℤ
  contributivity_methods : List String
  is_quick_demo : Bool
  scenario_name_has_space : Bool

/-- The validation sequence of `Scenario.__init__` (scenario.py 126-342), with
checks in source order.  The registries `MULTI_PARTNER_LEARNING_APPROACHES`,
`AGGREGATORS` and `constants.CONTRIBUTIVITY_METHODS` are defined in modules
that are not under `src/`, so their key sets are parameters; the claims about
the constructor do not depend on their contents. -/
def scenario_init (approaches aggregators contributivity_known : List String)
    (p : ScenarioParams) : Except PyError Unit :=
  if p.dataset_valid = false then .error .exception
  else if ¬ 0 < p.dataset_proportion then .error .assertionError
  else if ¬ p.dataset_proportion ≤ 1 then .error .assertionError
  else if p.amounts_per_partner.sum ≠ 1 then .error .valueError
  else if (p.amounts_per_partner.length : ℤ) ≠ p.partners_count then .error .attributeError
  else if ¬ (p.test_set = "local" ∨ p.test_set = "global") then .error .valueError
  else if ¬ (p.val_set = "local" ∨ p.val_set = "global") then .error .valueError
  else if p.splitter_known = false then .error .keyError
  else if p.corruption_known = false then .error .keyError
  else if p.multi_partner_learning_approach ∉ approaches then .error .keyError
  else if p.aggregation_weighting ∉ aggregators then .error .valueError
  else if ¬ 0 < p.epoch_count then .error .assertionError
  else if ¬ 0 < p.minibatch_count then .error .assertionError
  else if ¬ 0 < p.gradient_updates_per_pass_count then .error .assertionError
  else if ¬ ∀ m ∈ p.contributivity_methods, m ∈ contributivity_known then .error .exception
  else if p.is_quick_demo = true ∧ p.dataset_proportion < 1 then .error .exception
  else if p.scenario_name_has_space = true then .error .valueError
  else .ok ()

theorem ite_ok {c : Prop} [Decidable c] {e : PyError} {rest : Except PyError Unit}
    {u : Unit} (h : (if c then Except.error e else rest) = .ok u) :
    ¬c ∧ rest = .ok u := by
  by_cases hc : c
  · rw [if_pos hc] at h
    exact absurd h (by simp)
  · rw [if_neg hc] at h
    exact ⟨hc, h⟩

theorem scenario_init_ok (approaches aggregators contributivity_known : List String)
    (p : ScenarioParams) (u : Unit)
    (h : scenario_init approaches aggregators contributivity_known p = .ok u) :
    0 < p.epoch_count
    ∧ p.multi_partner_learning_approach ∈ approaches
    ∧ p.aggregation_weighting ∈ aggregators
    ∧ (∀ m ∈ p.contributivity_methods, m ∈ contributivity_known)
    ∧ p.amounts_per_partner.sum = 1
    ∧ (p.amounts_per_partner.length : ℤ) = p.partners_count := by
  rw [scenario_init] at h
  obtain ⟨h1, h⟩ := ite_ok h
  obtain ⟨h2, h⟩ := ite_ok h
  obtain ⟨h3, h⟩ := ite_ok h
  obtain ⟨h4, h⟩ := ite_ok h
  obtain ⟨h5, h⟩ := ite_ok h
  obtain ⟨h6, h⟩ := ite_ok h
  obtain ⟨h7, h⟩ := ite_ok h
  obtain ⟨h8, h⟩ := ite_ok h
  obtain ⟨h9, h⟩ := ite_ok h
  obtain ⟨h10, h⟩ := ite_ok h
  obtain ⟨h11, h⟩ := ite_ok h
  obtain ⟨h12, h⟩ := ite_ok h
  obtain ⟨h13, h⟩ := ite_ok h
  obtain ⟨h14, h⟩ := ite_ok h
  obtain ⟨h15, h⟩ := ite_ok h
  obtain ⟨h16, h⟩ := ite_ok h
  obtain ⟨h17, h⟩ := ite_ok h
  exact ⟨not_not.mp h12, not_not.mp h10, not_not.mp h11, not_not.mp h15,
    not_not.mp h4, not_not.mp h5⟩

/-! ### Batch sizes (mplc/scenario.py 473-489) -/

/-- The numpy call `np.clip` on a scalar. -/
def pyClip (x lo hi : ℕ) : ℕ := min (max x lo) hi

/-- Embedding of `Scenario.compute_batch_sizes`, abstracted over the partners' training-set
sizes `len(p.x_train)`.  `constants.MAX_BATCH_SIZE` is not under `src/`, so it
is a parameter. -/
def compute_batch_sizes (max_batch_size gradient_updates minibatch_count : ℕ)
    (train_lens : List ℕ) : List ℕ :=
  match train_lens with
  | [l] => [pyClip (l / gradient_updates) 1 max_batch_size]
  | ls => ls.map fun l => pyClip (l / (minibatch_count * gradient_updates)) 1 max_batch_size

/-! ### Config expansion (subtest/utils.py 42-92) -/

/-- One entry of `scenario_params_list` in the experiment config: every field
is a list of candidate values and `itertools.product` expands them.  Only the
fields taking part in the validation the claims mention are modelled. -/
structure CfgEntry where
  partners_count : List ℤ
  amounts_per_partner : List (List ℚ)

/-- The expansion `itertools.product` over the two modelled fields. -/
def comboList (e : CfgEntry) : List (ℤ × List ℚ) :=
  e.partners_count.flatMap fun pc => e.amounts_per_partner.map fun am => (pc, am)

/-- The per-combination validation loop body of `get_scenario_params_list`
(subtest/utils.py 79-89): a partners-count/amounts length mismatch raises. -/
def validateCombos : List (ℤ × List ℚ) → Except PyError (List (ℤ × List ℚ))
  | [] => .ok []
  | c :: cs =>
    if c.1 ≠ (c.2.length : ℤ) then .error .exception
    else (validateCombos cs).map fun l => c :: l

/-- Embedding of `get_scenario_params_list` restricted to the modelled fields: expand the
products, validating every combination. -/
def get_scenario_params_list (entries : List CfgEntry) :
    Except PyError (List (ℤ × List ℚ)) :=
  validateCombos ((entries.map comboList).flatten)

theorem validateCombos_error (l : List (ℤ × List ℚ))
    (h : ∃ c ∈ l, c.1 ≠ (c.2.length : ℤ)) :
    validateCombos l = .error .exception := by
  induction l with
  | nil => simp at h
  | cons c cs ih =>
    rw [validateCombos]
    by_cases hc : c.1 ≠ (c.2.length : ℤ)
    · rw [if_pos hc]
    · rw [if_neg hc]
      obtain ⟨x, hx, hxne⟩ := h
      rcases List.mem_cons.mp hx with rfl | hmem
      · exact absurd hxne hc
      · rw [ih ⟨x, hmem, hxne⟩]
        rfl

/-! ### Further loop facts -/

theorem runChar_trained {δ : Type} (O : MLOracle δ) (nodes : List (Node δ))
    (d : δ) (isES : Bool) (p T : ℕ) :
    (runChar O nodes d isES p T).trained
      = haltIn isES (gLoss O nodes d) (p + 1) 1 T := rfl

theorem runChar_score {δ : Type} (O : MLOracle δ) (nodes : List (Node δ))
    (d : δ) (isES : Bool) (p T : ℕ) :
    (runChar O nodes d isES p T).score
      = (O.evalOn (aggregateWeights (modelsAt O nodes
          (haltIn isES (gLoss O nodes d) (p + 1) 1 T - 1))) d).2 := rfl

theorem runChar_finalModels {δ : Type} (O : MLOracle δ) (nodes : List (Node δ))
    (d : δ) (isES : Bool) (p T : ℕ) :
    (runChar O nodes d isES p T).finalModels
      = modelsAt O nodes (haltIn isES (gLoss O nodes d) (p + 1) 1 T - 1) := rfl

theorem runChar_seeds {δ : Type} (O : MLOracle δ) (nodes : List (Node δ))
    (d : δ) (isES : Bool) (p T : ℕ) :
    (runChar O nodes d isES p T).seeds
      = seedsUpTo O nodes (haltIn isES (gLoss O nodes d) (p + 1) 1 T) := rfl

theorem runChar_losses {δ : Type} (O : MLOracle δ) (nodes : List (Node δ))
    (d : δ) (isES : Bool) (p T : ℕ) :
    (runChar O nodes d isES p T).globalValLoss
      = (List.range' 1 (if haltIn isES (gLoss O nodes d) (p + 1) 1 T < 1 + T
          then haltIn isES (gLoss O nodes d) (p + 1) 1 T
          else haltIn isES (gLoss O nodes d) (p + 1) 1 T - 1)).map (gLoss O nodes d) := rfl

theorem haltIn_ge (isES : Bool) (gl : ℕ → ℚ) (patience start fuel : ℕ) :
    start ≤ haltIn isES gl patience start fuel := by
  rw [haltIn]
  cases hf : (List.range' start fuel).find? (esHit isES gl patience) with
  | none => simp
  | some e =>
    have hmem := List.mem_of_find?_eq_some hf
    rw [List.mem_range'_1] at hmem
    simpa using hmem.1

theorem seedsUpTo_cons {δ : Type} (O : MLOracle δ) (nodes : List (Node δ))
    {E : ℕ} (h : 1 ≤ E) :
    seedsUpTo O nodes E
      = none :: (List.range' 1 (E - 1)).map
          (fun e => some (aggregateWeights (modelsAt O nodes (e - 1)))) := by
  obtain ⟨E', rfl⟩ : ∃ E', E = E' + 1 := ⟨E - 1, by omega⟩
  rw [seedsUpTo, List.range_eq_range', List.range'_succ]
  simp only [List.map_cons, if_pos rfl, Nat.add_sub_cancel]
  congr 1
  apply List.map_congr_left
  intro j hj
  rw [List.mem_range'_1] at hj
  rw [if_neg (by omega)]

/-! ### Concrete instances for the counterexamples -/

/-- A concrete node used by the closed runs below. -/
def exNode : Node ℕ := ⟨0, 0, 0, 0⟩

/-- The loss sequence driving the early-stopping counterexample, indexed by
the number of layers of the evaluated weights. -/
def c2Seq (n : ℕ) : ℚ := if n = 0 then 10 else if n = 1 then 5 else if n = 2 then 7 else 1

/-- A concrete oracle: a model trained at epoch `e` carries `e` (empty)
layers, so the aggregate of epoch `e`'s snapshots also carries `e` layers and
the evaluation can read the epoch off the weights.  The recorded losses are
`10, 5, 7, 1, 1, ...` at epochs `1, 2, 3, 4, 5, ...`. -/
def c2Oracle : MLOracle ℕ where
  fitFresh := fun _ _ => []
  fitFrom := fun _ e _ => List.replicate e []
  fitSingle := fun _ _ => []
  evalOn := fun w _ => (c2Seq w.length, 0)

/-- A concrete oracle whose evaluation depends only on the dataset label:
label `1` (the held-out test set) evaluates to `(5, 5)`, any other label
(such as `0`, a would-be separate validation set) to `(7, 7)`. -/
def c5Oracle : MLOracle ℕ where
  fitFresh := fun _ _ => []
  fitFrom := fun _ _ _ => []
  fitSingle := fun _ _ => []
  evalOn := fun _ d => if d = 1 then (5, 5) else (7, 7)

/-! ### Claim C1 -/

/-- Claim C1, counterexample: the aggregation step of `compute_test_score`
applied to the three constant snapshots `1.0`, `2.0`, `3.0` yields the plain
mean `2.0`, not the data-volume-weighted mean
`(100*1 + 200*2 + 300*3)/600 = 2.333...` the claim predicts; no data volume
enters `aggregateWeights` at all. -/
theorem claim1_counterexample :
    aggregateWeights [[[[1]]], [[[2]]], [[[3]]]] = [[[2]]]
    ∧ aggregateWeights [[[[1]]], [[[2]]], [[[3]]]]
        ≠ [[[(100 * 1 + 200 * 2 + 300 * 3) / 600]]] := by
  constructor
  · norm_num [aggregateWeights, pyZip, npMeanRows, npMean, minLen, List.range_succ]
  · norm_num [aggregateWeights, pyZip, npMeanRows, npMean, minLen, List.range_succ]

/-- Claim C1, amended: the aggregation step computes the plain, unweighted
element-wise mean of the partner snapshots, ignoring the configured weighting
and the partners' data volumes: for any number of partners holding constant
single-entry snapshots `c :: cs`, the aggregate is their arithmetic mean. -/
theorem claim1_unweighted_mean (c : ℚ) (cs : List ℚ) :
    aggregateWeights ((c :: cs).map fun x => [[[x]]])
      = [[[(c :: cs).sum / ((c :: cs).length : ℚ)]]] := by
  rw [aggregateWeights, pyZip_singletons ([] : Layer) (fun x => [[x]]) c cs,
    List.map_singleton, pyZip_singletons ([] : Row) (fun x => [x]) c cs,
    List.map_singleton]
  simp only [npMeanRows]
  rw [pyZip_singletons (0 : ℚ) (fun x => x) c cs, List.map_singleton]
  simp [npMean]

/-! ### Claim C2 -/

/-- Claim C2, counterexample: with patience 2 and recorded losses
`10, 5, 7, 1` at epochs `1, 2, 3, 4`, the engine halts at epoch 3 having
trained only epochs 0, 1, 2 of its budget of 5 — yet the claim's condition
`global_val_loss[e] > global_val_loss[e - patience]` holds at no evaluated
epoch (`7 ≤ 10` at `e = 3`, `1 ≤ 5` at `e = 4`), so under the claim the run
would have used its full budget.  The code's break in fact compares with
`global_val_loss[-PATIENCE]`, the loss from `patience - 1` epochs earlier. -/
theorem claim2_counterexample :
    (compute_test_score c2Oracle [exNode, exNode] 5 0 true PATIENCE).trained = 3
    ∧ (∀ e ∈ [3, 4], ¬ gLoss c2Oracle [exNode, exNode] 0 (e - PATIENCE)
        < gLoss c2Oracle [exNode, exNode] 0 e) := by
  decide

/-- Claim C2, amended: with early stopping enabled, the engine checks only
once at least `patience` aggregated evaluations exist (`patience ≤ e`) and
halts at the first epoch `e` whose fresh aggregated validation loss exceeds
the loss recorded `patience - 1` epochs earlier,
`global_val_loss[e] > global_val_loss[e - patience + 1]` (Python index
`-patience`, the current entry sitting at `-1`); no further epochs run after
the halt, and if no epoch in `1..T` fires the check the whole budget `T + 1`
is used.  `esHit true gl (p+1) e` is exactly that fire condition. -/
theorem claim2_first_halt {δ : Type} (O : MLOracle δ) (a b : Node δ)
    (rest : List (Node δ)) (d : δ) (p T : ℕ) :
    ((compute_test_score O (a :: b :: rest) (T + 1) d true (p + 1)).trained = T + 1
      ∧ ∀ e, 1 ≤ e → e ≤ T →
          esHit true (gLoss O (a :: b :: rest) d) (p + 1) e = false)
    ∨ (1 ≤ (compute_test_score O (a :: b :: rest) (T + 1) d true (p + 1)).trained
      ∧ (compute_test_score O (a :: b :: rest) (T + 1) d true (p + 1)).trained ≤ T
      ∧ esHit true (gLoss O (a :: b :: rest) d) (p + 1)
          (compute_test_score O (a :: b :: rest) (T + 1) d true (p + 1)).trained = true
      ∧ ∀ e, 1 ≤ e →
          e < (compute_test_score O (a :: b :: rest) (T + 1) d true (p + 1)).trained →
          esHit true (gLoss O (a :: b :: rest) d) (p + 1) e = false) := by
  rw [compute_test_score_multi, runChar_trained, haltIn]
  cases hf : (List.range' 1 T).find? (esHit true (gLoss O (a :: b :: rest) d) (p + 1)) with
  | none =>
    left
    simp only [Option.getD_none]
    refine ⟨by omega, fun e h1 h2 => ?_⟩
    have := List.find?_eq_none.mp hf e (by rw [List.mem_range'_1]; omega)
    simpa using this
  | some e =>
    right
    simp only [Option.getD_some]
    obtain ⟨hpe, hmem, hprev⟩ := List.find?_range'_eq_some.mp hf
    rw [List.mem_range'_1] at hmem
    refine ⟨hmem.1, by omega, hpe, fun j h1 h2 => ?_⟩
    simpa using hprev j h1 h2

/-! ### Claim C3 -/

/-- Claim C3: after the epoch loop exits for any reason (budget exhausted or
early-stopping break), the reported model is the single final aggregation of
the snapshots of the last completed epoch, `trained - 1`, and the returned
test score is the accuracy from evaluating that re-aggregated model on the
held-out test data `d`. -/
theorem claim3_final_aggregation {δ : Type} (O : MLOracle δ) (a b : Node δ)
    (rest : List (Node δ)) (d : δ) (isES : Bool) (p T : ℕ) :
    (compute_test_score O (a :: b :: rest) (T + 1) d isES (p + 1)).finalModels
      = modelsAt O (a :: b :: rest)
          ((compute_test_score O (a :: b :: rest) (T + 1) d isES (p + 1)).trained - 1)
    ∧ (compute_test_score O (a :: b :: rest) (T + 1) d isES (p + 1)).score
      = (O.evalOn (aggregateWeights (modelsAt O (a :: b :: rest)
          ((compute_test_score O (a :: b :: rest) (T + 1) d isES (p + 1)).trained - 1)))
          d).2 := by
  rw [compute_test_score_multi]
  exact ⟨runChar_finalModels O (a :: b :: rest) d isES p T, runChar_score O _ d isES p T⟩

/-! ### Claim C4 -/

/-- What the claim demands of the single-partner case, in the spec's words:
train a single fresh model on that partner's data for the full epoch budget
and evaluate it on the partner's test data — plain single-model
training/evaluation. -/
def plain_single_training_score {δ : Type} (O : MLOracle δ) (node : Node δ)
    (epoch_count : ℕ) : ℚ :=
  (O.evalOn (O.fitSingle node epoch_count) node.testData).2

/-- Claim C4: with exactly one node, `compute_test_score` returns exactly the
plain single-model training/evaluation score, records no aggregation-step
evaluations and no seeding events, trains the full epoch budget, and ignores
the global test data argument entirely. -/
theorem claim4_single_partner {δ : Type} (O : MLOracle δ) (node : Node δ)
    (epoch_count : ℕ) (x_test x_test' : δ) (isES : Bool) (patience : ℕ) :
    (compute_test_score O [node] epoch_count x_test isES patience).score
      = plain_single_training_score O node epoch_count
    ∧ (compute_test_score O [node] epoch_count x_test isES patience).globalValLoss = []
    ∧ (compute_test_score O [node] epoch_count x_test isES patience).globalValAcc = []
    ∧ (compute_test_score O [node] epoch_count x_test isES patience).seeds = []
    ∧ (compute_test_score O [node] epoch_count x_test isES patience).trained = epoch_count
    ∧ compute_test_score O [node] epoch_count x_test isES patience
      = compute_test_score O [node] epoch_count x_test' isES patience :=
  ⟨rfl, rfl, rfl, rfl, rfl, rfl⟩

/-! ### Claim C5 -/

/-- Claim C5 fails on the code: the loss recorded as `global_val_loss[1]` is
the evaluation of the epoch-1 aggregate on dataset label `1` — the very
`(x_test, y_test)` argument also used for the final reported score — and
differs from the evaluation of the same snapshot on the distinct label `0`
playing the claim's "global validation set" (the code's own comment marks the
missing separate validation set as a TODO). -/
theorem claim5_eval_on_test_set :
    (compute_test_score c5Oracle [exNode, exNode] 3 1 true PATIENCE).globalValLoss.getD 0 0
      = (c5Oracle.evalOn (aggregateWeights (modelsAt c5Oracle [exNode, exNode] 0)) 1).1
    ∧ (c5Oracle.evalOn (aggregateWeights (modelsAt c5Oracle [exNode, exNode] 0)) 0).1
      ≠ (compute_test_score c5Oracle [exNode, exNode] 3 1 true PATIENCE).globalValLoss.getD 0 0 := by
  decide

/-! ### Claim C6 -/

theorem scenario_init_is_error (approaches aggregators contributivity_known : List String)
    (p : ScenarioParams)
    (hbad : p.epoch_count ≤ 0
      ∨ p.multi_partner_learning_approach ∉ approaches
      ∨ p.aggregation_weighting ∉ aggregators
      ∨ ∃ m ∈ p.contributivity_methods, m ∉ contributivity_known) :
    ∃ e, scenario_init approaches aggregators contributivity_known p = .error e := by
  cases hres : scenario_init approaches aggregators contributivity_known p with
  | error e => exact ⟨e, rfl⟩
  | ok u =>
    exfalso
    obtain ⟨he, ha, hw, hm, -, -⟩ :=
      scenario_init_ok approaches aggregators contributivity_known p u hres
    rcases hbad with hb | hb | hb | ⟨m, hmem, hnot⟩
    · omega
    · exact hb ha
    · exact hb hw
    · exact hnot (hm m hmem)

/-- Claim C6: a `Scenario` construction given a non-positive epoch count, an
unknown multi-partner-learning-approach name, an unknown
aggregation-weighting name, or an unknown contributivity-method name always
fails with an exception raised during `__init__`; it never succeeds with such
a value. -/
theorem claim6_config_rejected (approaches aggregators contributivity_known : List String)
    (p : ScenarioParams)
    (hbad : p.epoch_count ≤ 0
      ∨ p.multi_partner_learning_approach ∉ approaches
      ∨ p.aggregation_weighting ∉ aggregators
      ∨ ∃ m ∈ p.contributivity_methods, m ∉ contributivity_known) :
    ∃ e, scenario_init approaches aggregators contributivity_known p = .error e
    ∧ ∀ u, scenario_init approaches aggregators contributivity_known p ≠ .ok u := by
  obtain ⟨e, he⟩ := scenario_init_is_error approaches aggregators contributivity_known p hbad
  exact ⟨e, he, fun u hu => by rw [he] at hu; exact Except.noConfusion hu⟩

/-- A fully valid parameter set: `scenario_init` accepts it. -/
def okParams : ScenarioParams where
  partners_count := 3
  amounts_per_partner := [1, 0, 0]
  dataset_valid := true
  dataset_proportion := 1
  test_set := "global"
  val_set := "global"
  splitter_known := true
  corruption_known := true
  multi_partner_learning_approach := "fedavg"
  aggregation_weighting := "data-volume"
  epoch_count := 5
  minibatch_count := 2
  gradient_updates_per_pass_count := 8
  contributivity_methods := ["Shapley values"]
  is_quick_demo := false
  scenario_name_has_space := false

/-- The parameter set `okParams` with a non-positive epoch budget. -/
def badParams : ScenarioParams := { okParams with epoch_count := 0 }

theorem claim6_config_rejected_witness :
    ∃ e, scenario_init ["fedavg"] ["data-volume"] ["Shapley values"] badParams = .error e
    ∧ ∀ u, scenario_init ["fedavg"] ["data-volume"] ["Shapley values"] badParams ≠ .ok u :=
  claim6_config_rejected ["fedavg"] ["data-volume"] ["Shapley values"] badParams
    (Or.inl (by decide))

/-! ### Claim C7 -/

/-- Claim C7: in every multi-partner run, the executed training phases are:
epoch 0 with no seeding (the trace records `none`: each node trains a fresh,
independently initialized model on its own data, and `modelsAt _ _ 0` is by
definition the fresh fit of every node), and each later executed epoch
`e < trained` seeded with the aggregate of epoch `e - 1`'s snapshots —
exactly one local pass per node per epoch. -/
theorem claim7_seed_trace {δ : Type} (O : MLOracle δ) (a b : Node δ)
    (rest : List (Node δ)) (d : δ) (isES : Bool) (p T : ℕ) :
    (compute_test_score O (a :: b :: rest) (T + 1) d isES (p + 1)).seeds
      = none :: (List.range' 1
          ((compute_test_score O (a :: b :: rest) (T + 1) d isES (p + 1)).trained - 1)).map
          (fun e => some (aggregateWeights (modelsAt O (a :: b :: rest) (e - 1))))
    ∧ modelsAt O (a :: b :: rest) 0
      = (a :: b :: rest).map (fun nd => O.fitFresh 0 nd) := by
  rw [compute_test_score_multi, runChar_seeds, runChar_trained]
  exact ⟨seedsUpTo_cons O _ (haltIn_ge _ _ _ _ _), rfl⟩

/-! ### Claim C8 -/

/-- Claim C8: no run of `compute_test_score` ever executes more training
epochs than the configured budget — the loop over `range(epochs)` can only be
cut short by the early-stopping break, never extended. -/
theorem claim8_epoch_budget {δ : Type} (O : MLOracle δ) (node_list : List (Node δ))
    (epoch_count : ℕ) (x_test : δ) (isES : Bool) (patience : ℕ) :
    (compute_test_score O node_list epoch_count x_test isES patience).trained
      ≤ epoch_count := by
  match node_list with
  | [] =>
    show (flAux O [] x_test isES patience 0 epoch_count [] [] [] [] 0).trained ≤ epoch_count
    simpa using flAux_trained_le O [] x_test isES patience epoch_count 0 [] [] [] [] 0
  | [node] => exact le_rfl
  | a :: b :: rest =>
    show (flAux O _ x_test isES patience 0 epoch_count [] [] [] [] 0).trained ≤ epoch_count
    simpa using
      flAux_trained_le O (a :: b :: rest) x_test isES patience epoch_count 0 [] [] [] [] 0

/-! ### Claim C9 -/

/-- Claim C9: every batch size `compute_batch_sizes` assigns is a positive
integer, computed from the partner's training-data volume divided by the
requested update counts (`gradient_updates_per_pass_count` alone for a single
partner, times `minibatch_count` otherwise) and clipped into
`[1, MAX_BATCH_SIZE]`, hence at least 1 even when the division yields 0. -/
theorem claim9_batch_size_bounds (max_batch_size gradient_updates minibatch_count : ℕ)
    (train_lens : List ℕ) (hmax : 1 ≤ max_batch_size)
    (hg : 0 < gradient_updates) (hm : 0 < minibatch_count) :
    ∀ bs ∈ compute_batch_sizes max_batch_size gradient_updates minibatch_count train_lens,
      1 ≤ bs ∧ bs ≤ max_batch_size := by
  intro bs hbs
  have hclip : ∀ x, 1 ≤ pyClip x 1 max_batch_size ∧ pyClip x 1 max_batch_size ≤ max_batch_size := by
    intro x
    rw [pyClip]
    omega
  match train_lens with
  | [] => simp [compute_batch_sizes] at hbs
  | [l] =>
    rw [compute_batch_sizes] at hbs
    rw [List.mem_singleton.mp hbs]
    exact hclip _
  | l1 :: l2 :: ls =>
    obtain ⟨l, -, rfl⟩ := List.mem_map.mp hbs
    exact hclip _

theorem claim9_batch_size_bounds_witness : 1 ≤ 256 ∧ 256 ≤ 256 :=
  claim9_batch_size_bounds 256 8 2 [3, 10000] (by decide) (by decide) (by decide)
    256 (by decide)

/-! ### Claim C10 -/

/-- Claim C10: `Scenario.__init__`, once past the dataset checks, raises
`ValueError` when the amounts do not sum to exactly 1, raises
`AttributeError` when (the amounts do sum to 1 but) their number differs from
`partners_count`, and succeeds only when both conditions hold; and the config
expansion `get_scenario_params_list` raises its generic `Exception` whenever
any expanded combination has the same length mismatch. -/
theorem claim10_amounts_checks (approaches aggregators contributivity_known : List String)
    (p : ScenarioParams) (hds : p.dataset_valid = true)
    (hp0 : 0 < p.dataset_proportion) (hp1 : p.dataset_proportion ≤ 1) :
    (p.amounts_per_partner.sum ≠ 1 →
      scenario_init approaches aggregators contributivity_known p = .error .valueError)
    ∧ (p.amounts_per_partner.sum = 1 →
        (p.amounts_per_partner.length : ℤ) ≠ p.partners_count →
        scenario_init approaches aggregators contributivity_known p = .error .attributeError)
    ∧ (∀ u, scenario_init approaches aggregators contributivity_known p = .ok u →
        p.amounts_per_partner.sum = 1
        ∧ (p.amounts_per_partner.length : ℤ) = p.partners_count)
    ∧ (∀ entries : List CfgEntry,
        (∃ c ∈ (entries.map comboList).flatten, c.1 ≠ (c.2.length : ℤ)) →
        get_scenario_params_list entries = .error .exception) := by
  refine ⟨?_, ?_, ?_, ?_⟩
  · intro hsum
    rw [scenario_init, if_neg (by simp [hds]), if_neg (by simpa using hp0),
      if_neg (by simpa using hp1), if_pos hsum]
  · intro hsum hlen
    rw [scenario_init, if_neg (by simp [hds]), if_neg (by simpa using hp0),
      if_neg (by simpa using hp1), if_neg (by simpa using hsum), if_pos hlen]
  · intro u hok
    obtain ⟨-, -, -, -, h5, h6⟩ :=
      scenario_init_ok approaches aggregators contributivity_known p u hok
    exact ⟨h5, h6⟩
  · intro entries hmis
    exact validateCombos_error _ hmis

theorem claim10_amounts_checks_witness :
    get_scenario_params_list [⟨[2], [[1, 0], [1]]⟩] = .error .exception :=
  (claim10_amounts_checks ["fedavg"] ["data-volume"] ["Shapley values"] okParams
    (by decide) (by decide) (by decide)).2.2.2
    [⟨[2], [[1, 0], [1]]⟩] (by decide)

end Mplc
